import Mathlib

/-!
A verification development for the pull-request event analytics services
(`PullRequestGithubEventsService`, `ForkGithubEventsService`,
`PullRequestService`, `UserService`).

The TypeScript services build TimescaleDB/PostgreSQL queries.  We embed the
semantics of those queries over in-memory lists of records:

* a table is a `List` of records, in physical row order;
* `ROW_NUMBER() OVER (PARTITION BY k ORDER BY event_time DESC)` is embedded by
  ranking the rows of each partition by descending `event_time`, ties broken by
  physical position (an arbitrary but fixed refinement of the order PostgreSQL
  may choose among peers);
* timestamps are integers counting hours; a SQL `::DATE` cast is floor division
  by 24; `time_bucket` buckets are anchored at instant 0 (the fixed TimescaleDB
  bucket origin, which is independent of any query parameter);
* `AVG(...)::INTEGER` on integer day differences is the rational average
  rounded half away from zero, PostgreSQL's numeric-to-integer cast;
* nullable validation guards returning HTTP errors are embedded with `Except`.
-/

namespace OpenSaucedApi

/-- A row of the `pull_request_github_events` hypertable, with the columns the
services under study read.  `pr_merged_at` / `pr_created_at` are timestamps in
hours; `pr_merged_at` is only meaningful when `pr_is_merged` is set. -/
structure Event where
  event_id : Nat
  pr_number : Nat
  repo_name : String
  repo_id : Nat
  pr_author_login : String
  pr_author_id : Nat
  event_time : Int
  pr_action : String
  pr_state : String
  pr_is_draft : Bool
  pr_is_merged : Bool
  pr_created_at : Int
  pr_merged_at : Int
  pr_active_lock_reason : String
deriving DecidableEq, Repr

/-- The partition key of the latest-state CTEs:
`PARTITION BY pr_number, repo_name`. -/
def prKey (e : Event) : Nat × String := (e.pr_number, e.repo_name)

/-- Row `e` at physical position `i` ranks no later than row `f` at position `j`
in `ORDER BY event_time DESC`, ties broken by physical position.  The row of a
partition that ranks before all rows of its partition is the one that receives
`row_num = 1`. -/
def ranksBefore (i : Nat) (e : Event) (j : Nat) (f : Event) : Bool :=
  decide (f.event_time < e.event_time) ||
    (decide (f.event_time = e.event_time) && decide (i ≤ j))

/-- `row_num = 1` for the row `e` sitting at position `i` of table `l`:
every row of the same `(pr_number, repo_name)` partition ranks no earlier. -/
def isRowNumOne (l : List Event) (i : Nat) (e : Event) : Bool :=
  l.enum.all fun q => !(decide (prKey q.2 = prKey e)) || ranksBefore i e q.1 q.2

/-- `SELECT * FROM CTE WHERE row_num = 1` — the latest-state resolution used by
`execCommonTableExpression`, `execVelocityCommonTableExpression`,
`findPrStatsByRepo` and `genPrHistogram`. -/
def selectRowNumOne (l : List Event) : List Event :=
  (l.enum.filter fun p => isRowNumOne l p.1 p.2).map Prod.snd

/-- Page metadata.  Modelled from the spec: `PageMetaDto`
(`src/common/dtos/page-meta.dto`) is not part of the sources under study; §3
specifies "page metadata derived from itemCount/limit/skip". -/
structure PageMeta where
  page : Nat
  limit : Nat
  itemCount : Nat
  pageCount : Nat
  hasPreviousPage : Bool
  hasNextPage : Bool
deriving DecidableEq, Repr

/-- Modelled from the spec: metadata derived from `itemCount`/`limit`/`skip` —
the page index of the slice, the page count as a ceiling division, and the
previous/next flags. -/
def mkPageMeta (itemCount limit skip : Nat) : PageMeta :=
  { page := skip / limit + 1
    limit := limit
    itemCount := itemCount
    pageCount := (itemCount + limit - 1) / limit
    hasPreviousPage := decide (1 < skip / limit + 1)
    hasNextPage := decide (skip / limit + 1 < (itemCount + limit - 1) / limit) }

/-- A `PageDto`: the sliced items together with the metadata. -/
structure Page (α : Type) where
  items : List α
  meta : PageMeta
deriving DecidableEq, Repr

/-- `execCommonTableExpression`: the item query applies `row_num = 1` then
`OFFSET skip LIMIT limit`; the counter query counts the `row_num = 1` rows of
the same CTE with no offset or limit. -/
def execCommonTableExpression (skip limit : Nat) (cte : List Event) : Page Event :=
  let dedup := selectRowNumOne cte
  { items := (dedup.drop skip).take limit
    meta := mkPageMeta dedup.length limit skip }

/-! ### String primitives

SQL `LOWER(...)` and JavaScript `toLowerCase()` / `split(",")` are embedded
with structurally recursive functions over the underlying character lists
(ASCII case folding, which is what the data under study uses). -/

/-- `LOWER(s)` / `s.toLowerCase()`. -/
def lowerStr (s : String) : String := String.mk (s.data.map Char.toLower)

def splitCommaAux : List Char → List Char → List String
  | [], acc => [String.mk acc.reverse]
  | c :: rest, acc =>
    if c = ',' then String.mk acc.reverse :: splitCommaAux rest []
    else splitCommaAux rest (c :: acc)

/-- `s.split(",")`. -/
def splitComma (s : String) : List String := splitCommaAux s.data []

/-! ### Properties of the ranking relation -/

lemma ranksBefore_refl (i : Nat) (e : Event) : ranksBefore i e i e = true := by
  simp [ranksBefore]

lemma ranksBefore_total (i : Nat) (e : Event) (j : Nat) (f : Event) :
    ranksBefore i e j f = true ∨ ranksBefore j f i e = true := by
  simp only [ranksBefore, Bool.or_eq_true, Bool.and_eq_true, decide_eq_true_eq]
  omega

lemma ranksBefore_trans {i j k : Nat} {e f g : Event} (h1 : ranksBefore i e j f = true)
    (h2 : ranksBefore j f k g = true) : ranksBefore i e k g = true := by
  simp only [ranksBefore, Bool.or_eq_true, Bool.and_eq_true, decide_eq_true_eq] at *
  omega

lemma ranksBefore_antisymm {i j : Nat} {e f : Event} (h1 : ranksBefore i e j f = true)
    (h2 : ranksBefore j f i e = true) : i = j := by
  simp only [ranksBefore, Bool.or_eq_true, Bool.and_eq_true, decide_eq_true_eq] at *
  omega

lemma ranksBefore_time_le {i j : Nat} {e f : Event} (h : ranksBefore i e j f = true) :
    f.event_time ≤ e.event_time := by
  simp only [ranksBefore, Bool.or_eq_true, Bool.and_eq_true, decide_eq_true_eq] at h
  omega

/-- `p` ranks before every indexed row of `P`. -/
def dominatesList (p : Nat × Event) (P : List (Nat × Event)) : Prop :=
  ∀ q ∈ P, ranksBefore p.1 p.2 q.1 q.2 = true

instance (p : Nat × Event) (P : List (Nat × Event)) : Decidable (dominatesList p P) :=
  List.decidableBAll _ P

lemma exists_dominator (P : List (Nat × Event)) (h : P ≠ []) :
    ∃ p ∈ P, dominatesList p P := by
  induction P with
  | nil => exact absurd rfl h
  | cons x xs ih =>
    cases xs with
    | nil =>
      refine ⟨x, List.mem_cons_self x [], fun q hq => ?_⟩
      rcases List.mem_singleton.mp hq with rfl
      exact ranksBefore_refl _ _
    | cons y t =>
      obtain ⟨u, hu_mem, hu_dom⟩ := ih (by simp)
      by_cases hxu : ranksBefore x.1 x.2 u.1 u.2 = true
      · refine ⟨x, List.mem_cons_self _ _, fun q hq => ?_⟩
        rcases List.mem_cons.mp hq with rfl | hq2
        · exact ranksBefore_refl _ _
        · exact ranksBefore_trans hxu (hu_dom q hq2)
      · have hux : ranksBefore u.1 u.2 x.1 x.2 = true := by
          rcases ranksBefore_total x.1 x.2 u.1 u.2 with h1 | h1
          · exact absurd h1 hxu
          · exact h1
        refine ⟨u, List.mem_cons_of_mem _ hu_mem, fun q hq => ?_⟩
        rcases List.mem_cons.mp hq with rfl | hq2
        · exact hux
        · exact hu_dom q hq2

lemma dominator_unique {P : List (Nat × Event)} (hnd : (P.map Prod.fst).Nodup)
    {p q : Nat × Event} (hp : p ∈ P) (hq : q ∈ P)
    (hdp : dominatesList p P) (hdq : dominatesList q P) : p = q :=
  List.inj_on_of_nodup_map hnd hp hq (ranksBefore_antisymm (hdp q hq) (hdq p hp))

/-! ### Generic list helpers -/

lemma length_eq_one_of_unique {α : Type} {L : List α} {p : α} (hnd : L.Nodup)
    (hp : p ∈ L) (hu : ∀ q ∈ L, q = p) : L.length = 1 := by
  cases L with
  | nil => cases hp
  | cons a t =>
    have ha : a = p := hu a (List.mem_cons_self a t)
    cases t with
    | nil => rfl
    | cons b t2 =>
      have hb : b = p := hu b (List.mem_cons_of_mem _ (List.mem_cons_self b t2))
      subst ha
      subst hb
      exact absurd (List.mem_cons_self _ _) (List.nodup_cons.mp hnd).1

lemma length_filter_map_snd {α β : Type} (L : List (β × α)) (g : α → Bool) :
    ((L.map Prod.snd).filter g).length = (L.filter fun p => g p.2).length := by
  induction L with
  | nil => rfl
  | cons x t ih => by_cases hx : g x.2 <;> simp [List.filter_cons, hx, ih]

lemma filter_swap {α : Type} (l : List α) (a b : α → Bool) :
    (l.filter a).filter b = (l.filter b).filter a := by
  induction l with
  | nil => rfl
  | cons x t ih =>
    by_cases hax : a x <;> by_cases hbx : b x <;> simp [List.filter_cons, hax, hbx, ih]

lemma exists_enum_pair {e : Event} {l : List Event} (he : e ∈ l) : ∃ i, (i, e) ∈ l.enum := by
  obtain ⟨i, hi, rfl⟩ := List.mem_iff_getElem.mp he
  exact ⟨i, List.mk_mem_enum_iff_getElem?.mpr (List.getElem?_eq_getElem hi)⟩

lemma mem_of_enum_pair {p : Nat × Event} {l : List Event} (hp : p ∈ l.enum) : p.2 ∈ l := by
  obtain ⟨i, e⟩ := p
  exact List.getElem?_mem (List.mk_mem_enum_iff_getElem?.mp hp)

/-! ### C1: latest-state resolution -/

lemma isRowNumOne_iff_dominates {l : List Event} {k : Nat × String} {p : Nat × Event}
    (hp : p ∈ (l.enum.filter fun q => decide (prKey q.2 = k))) :
    isRowNumOne l p.1 p.2 = true ↔
      dominatesList p (l.enum.filter fun q => decide (prKey q.2 = k)) := by
  obtain ⟨hpD, hpk⟩ := List.mem_filter.mp hp
  have hpk' : prKey p.2 = k := of_decide_eq_true hpk
  constructor
  · intro hall q hq
    obtain ⟨hqD, hqk⟩ := List.mem_filter.mp hq
    have hkeq : prKey q.2 = prKey p.2 := by rw [of_decide_eq_true hqk, hpk']
    unfold isRowNumOne at hall
    have h2 := List.all_eq_true.mp hall q hqD
    simpa [hkeq] using h2
  · intro hdom
    have : ∀ q ∈ l.enum,
        (!(decide (prKey q.2 = prKey p.2)) || ranksBefore p.1 p.2 q.1 q.2) = true := by
      intro q hqD
      by_cases hq : prKey q.2 = prKey p.2
      · have hqP : q ∈ l.enum.filter (fun q => decide (prKey q.2 = k)) :=
          List.mem_filter.mpr ⟨hqD, decide_eq_true (hq.trans hpk')⟩
        simp [hq, hdom q hqP]
      · simp [hq]
    unfold isRowNumOne
    exact List.all_eq_true.mpr this

/-- **C1.** For every non-empty `(pr_number, repo_name)` partition of the
windowed, filtered event set, the `row_num = 1` selection keeps exactly one
record of that partition, that record is one of the partition's events, and its
`event_time` is the maximum `event_time` within the partition.  The tie-break
among events sharing the maximal `event_time` is the fixed physical-order
refinement embedded in `ranksBefore`, so resolution is a pure deterministic
function of the input set. -/
theorem latest_state_resolution_unique_max (l : List Event) (k : Nat × String)
    (h : ∃ e ∈ l, prKey e = k) :
    ((selectRowNumOne l).filter fun e => decide (prKey e = k)).length = 1 ∧
    ∀ r ∈ selectRowNumOne l, prKey r = k →
      r ∈ l ∧ ∀ e ∈ l, prKey e = k → e.event_time ≤ r.event_time := by
  obtain ⟨e0, he0, hk0⟩ := h
  obtain ⟨i0, hi0⟩ := exists_enum_pair he0
  have hP0 : (i0, e0) ∈ l.enum.filter (fun q => decide (prKey q.2 = k)) :=
    List.mem_filter.mpr ⟨hi0, decide_eq_true hk0⟩
  have hPne : l.enum.filter (fun q => decide (prKey q.2 = k)) ≠ [] :=
    List.ne_nil_of_mem hP0
  have hDnd : (l.enum.map Prod.fst).Nodup := List.nodup_enum_map_fst l
  have hPsub : List.Sublist (l.enum.filter fun q => decide (prKey q.2 = k)) l.enum :=
    List.filter_sublist _
  have hPnd : ((l.enum.filter fun q => decide (prKey q.2 = k)).map Prod.fst).Nodup :=
    hDnd.sublist (hPsub.map Prod.fst)
  have hPnd' : (l.enum.filter fun q => decide (prKey q.2 = k)).Nodup :=
    List.Nodup.of_map _ hPnd
  obtain ⟨d, hdP, hd⟩ := exists_dominator _ hPne
  constructor
  · have hlen1 : ((selectRowNumOne l).filter fun e => decide (prKey e = k)).length
        = (((l.enum.filter fun p => isRowNumOne l p.1 p.2).filter
            fun p => decide (prKey p.2 = k))).length := by
      unfold selectRowNumOne
      exact length_filter_map_snd _ _
    rw [hlen1, filter_swap]
    have hd1 : isRowNumOne l d.1 d.2 = true := (isRowNumOne_iff_dominates hdP).mpr hd
    have hdmem : d ∈ (l.enum.filter fun q => decide (prKey q.2 = k)).filter
        (fun p => isRowNumOne l p.1 p.2) := List.mem_filter.mpr ⟨hdP, hd1⟩
    refine length_eq_one_of_unique (hPnd'.filter _) hdmem ?_
    intro q hq
    obtain ⟨hqP, hq1⟩ := List.mem_filter.mp hq
    exact dominator_unique hPnd hqP hdP ((isRowNumOne_iff_dominates hqP).mp hq1) hd
  · intro r hr hkr
    obtain ⟨p, hpDf, hps⟩ := List.mem_map.mp hr
    obtain ⟨hpD, hp1⟩ := List.mem_filter.mp hpDf
    subst hps
    refine ⟨mem_of_enum_pair hpD, ?_⟩
    intro e he hke
    obtain ⟨j, hj⟩ := exists_enum_pair he
    unfold isRowNumOne at hp1
    have hall := List.all_eq_true.mp hp1 (j, e) hj
    have hkeq : prKey e = prKey p.2 := by rw [hke, hkr]
    simp only [hkeq, decide_eq_true_eq, Bool.not_eq_true, Bool.or_eq_true] at hall
    rcases hall with hbad | hok
    · simp at hbad
    · exact ranksBefore_time_le hok

/-- A convenient fully-populated event to build concrete examples from. -/
def baseEvent : Event :=
  { event_id := 0, pr_number := 0, repo_name := "", repo_id := 0,
    pr_author_login := "", pr_author_id := 0, event_time := 0,
    pr_action := "", pr_state := "", pr_is_draft := false, pr_is_merged := false,
    pr_created_at := 0, pr_merged_at := 0, pr_active_lock_reason := "" }

def c1EvA : Event := { baseEvent with event_id := 1, pr_number := 1, repo_name := "r", event_time := 5 }

def c1EvB : Event := { baseEvent with event_id := 2, pr_number := 1, repo_name := "r", event_time := 9 }

/-- Witness for C1 at a concrete two-event partition. -/
theorem latest_state_resolution_unique_max_witness :
    ((selectRowNumOne [c1EvA, c1EvB]).filter fun e => decide (prKey e = (1, "r"))).length = 1 :=
  (latest_state_resolution_unique_max [c1EvA, c1EvB] (1, "r") ⟨c1EvA, by decide, by decide⟩).1

/-! ### C2: pagination metadata consistency -/

/-- **C2.** The `itemCount` produced by `execCommonTableExpression` is the
count of the full deduplicated (`row_num = 1`) set with no slicing applied: it
equals the length of the resolved set, `paginate(set, 0, N).itemCount` equals
that same count for every `N`, and the count is independent of `limit` and
`skip`. -/
theorem itemCount_independent_of_pagination (cte : List Event) (skip limit n : Nat) :
    (execCommonTableExpression skip limit cte).meta.itemCount
        = (selectRowNumOne cte).length ∧
    (execCommonTableExpression 0 n cte).meta.itemCount
        = (execCommonTableExpression skip limit cte).meta.itemCount :=
  ⟨rfl, rfl⟩

/-! ### C5: velocity -/

/-- The `::DATE` cast of an hour-resolution timestamp: the calendar day it
falls in. -/
def dateOf (t : Int) : Int := Int.fdiv t 24

/-- The `row_num = 1 AND pr_is_merged = true` rows of the CTE. -/
def mergedRows (cte : List Event) : List Event :=
  (selectRowNumOne cte).filter fun e => e.pr_is_merged

/-- Sum of `pr_merged_at::DATE - pr_created_at::DATE` over the merged rows. -/
def mergedDaysSum (cte : List Event) : Int :=
  ((mergedRows cte).map fun e => dateOf e.pr_merged_at - dateOf e.pr_created_at).sum

def mergedCount (cte : List Event) : Nat := (mergedRows cte).length

/-- PostgreSQL's `numeric::INTEGER` cast of the average `s / n`: round to the
nearest integer, ties away from zero. -/
def roundHalfAwayFromZero (s : Int) (n : Nat) : Int :=
  if 0 ≤ s then ((2 * s.toNat + n) / (2 * n) : Nat)
  else -(((2 * (-s).toNat + n) / (2 * n) : Nat))

/-- `execVelocityCommonTableExpression`:
`COALESCE(AVG(pr_merged_at::DATE - pr_created_at::DATE), 0)::INTEGER` over the
`row_num = 1 AND pr_is_merged = true` rows of the CTE. -/
def execVelocityCommonTableExpression (cte : List Event) : Int :=
  if mergedCount cte = 0 then 0
  else roundHalfAwayFromZero (mergedDaysSum cte) (mergedCount cte)

/-- Modelled from the spec's words: the average of the day differences
"truncated to whole days" (integer division truncating toward zero), to be
compared with the code's rounding cast. -/
def velocitySpecTruncated (cte : List Event) : Int :=
  if mergedCount cte = 0 then 0
  else Int.tdiv (mergedDaysSum cte) (mergedCount cte)

lemma natDiv_eq_round (a n : ℕ) (hn : n ≠ 0) :
    (((2 * a + n) / (2 * n) : ℕ) : ℤ) = round ((a : ℚ) / (n : ℚ)) := by
  have hn' : (0:ℚ) < (n : ℚ) := by exact_mod_cast Nat.pos_of_ne_zero hn
  have key : (a : ℚ) / (n : ℚ) + 1/2 = ((2*a+n : ℕ) : ℚ) / ((2*n : ℕ) : ℚ) := by
    push_cast
    field_simp
    ring
  have h0 : (0:ℚ) ≤ ((2*a+n : ℕ) : ℚ) / ((2*n : ℕ) : ℚ) := by positivity
  rw [round_eq, key, ← Int.natCast_floor_eq_floor h0, Nat.floor_div_eq_div]

/-- **C5 (amended).** Velocity is `0` when the deduplicated set has no merged
record (never null, never an error), and otherwise is the average over merged
records of `(merged_at date − created_at date)` rounded to the nearest whole
day, half away from zero — not truncated. -/
theorem velocity_zero_default_and_rounded_average (cte : List Event)
    (hs : 0 ≤ mergedDaysSum cte) :
    (mergedCount cte = 0 → execVelocityCommonTableExpression cte = 0) ∧
    (mergedCount cte ≠ 0 →
      execVelocityCommonTableExpression cte =
        round ((mergedDaysSum cte : ℚ) / (mergedCount cte : ℚ))) := by
  constructor
  · intro h
    simp [execVelocityCommonTableExpression, h]
  · intro h
    have hcast : (((mergedDaysSum cte).toNat : ℕ) : ℚ) = ((mergedDaysSum cte : ℤ) : ℚ) := by
      have h1 : (((mergedDaysSum cte).toNat : ℕ) : ℤ) = mergedDaysSum cte :=
        Int.toNat_of_nonneg hs
      exact_mod_cast congrArg (fun z : ℤ => (z : ℚ)) h1
    unfold execVelocityCommonTableExpression roundHalfAwayFromZero
    rw [if_neg h, if_pos hs, natDiv_eq_round _ _ h, hcast]

def c5EvA : Event :=
  { baseEvent with
    event_id := 1
    pr_number := 1
    repo_name := "a/b"
    event_time := 1
    pr_is_merged := true
    pr_created_at := 0
    pr_merged_at := 48 }

def c5EvB : Event :=
  { baseEvent with
    event_id := 2
    pr_number := 2
    repo_name := "a/b"
    event_time := 2
    pr_is_merged := true
    pr_created_at := 0
    pr_merged_at := 72 }

/-- Counterexample to C5 as stated: two merged PRs, 2 and 3 days to merge.
The average 2.5 is cast with `::INTEGER` to `3`; truncation to whole days
would give `2`. -/
theorem velocity_truncation_counterexample :
    execVelocityCommonTableExpression [c5EvA, c5EvB] = 3 ∧
    velocitySpecTruncated [c5EvA, c5EvB] = 2 ∧
    execVelocityCommonTableExpression [c5EvA, c5EvB]
      ≠ velocitySpecTruncated [c5EvA, c5EvB] := by decide

def c5EvSingle : Event :=
  { baseEvent with
    event_id := 3
    pr_number := 1
    repo_name := "a/b"
    event_time := 1
    pr_is_merged := true
    pr_created_at := 0
    pr_merged_at := 120 }

/-- Witness for the amended C5: a single record merged 5 days after creation
has velocity 5. -/
theorem velocity_zero_default_and_rounded_average_witness :
    execVelocityCommonTableExpression [c5EvSingle] =
      round ((mergedDaysSum [c5EvSingle] : ℚ) / (mergedCount [c5EvSingle] : ℚ)) ∧
    execVelocityCommonTableExpression [c5EvSingle] = 5 :=
  ⟨(velocity_zero_default_and_rounded_average [c5EvSingle] (by decide)).2 (by decide),
    by decide⟩

/-! ### C6: histogram buckets -/

/-- TimescaleDB `time_bucket('w', t)`: the start of the fixed-width bucket
containing `t`, anchored at the fixed bucket origin (instant 0 of our time
scale), independent of any query parameter. -/
def timeBucket (width t : Int) : Int := width * Int.fdiv t width

/-- The `GROUP BY bucket` phase shared by `genPrHistogram` and
`genForkHistogram`: one output row per occupied bucket, carrying that bucket's
row count (`count(*)` — the remaining aggregates restrict this count by a
predicate and are omitted here). -/
def histogramBuckets (width : Int) (rows : List Event) : List (Int × Nat) :=
  ((rows.map fun e => timeBucket width e.event_time).dedup).map
    fun b => (b, (rows.filter fun e => decide (timeBucket width e.event_time = b)).length)

/-- `genPrHistogram`, bucketing phase: `time_bucket` grouping over the
`row_num = 1` rows of the windowed, filtered CTE. -/
def genPrHistogram (width : Int) (cte : List Event) : List (Int × Nat) :=
  histogramBuckets width (selectRowNumOne cte)

/-- Modelled from the spec's words: the bucket key
`floor((event_time − window.start) / bucketWidth)`, materialised as the
timestamp `window.start + bucketWidth · floor((event_time − window.start) /
bucketWidth)` of a bucket anchored at the window start. -/
def specWindowAnchoredKey (windowStart width t : Int) : Int :=
  windowStart + width * Int.fdiv (t - windowStart) width

lemma map_fst_pairing {α β : Type} (L : List α) (g : α → β) :
    (L.map fun b => (b, g b)).map Prod.fst = L := by
  induction L with
  | nil => rfl
  | cons x t ih => simp [ih]

lemma genPrHistogram_keys (width : Int) (cte : List Event) :
    (genPrHistogram width cte).map Prod.fst
      = ((selectRowNumOne cte).map fun e => timeBucket width e.event_time).dedup := by
  unfold genPrHistogram histogramBuckets
  exact map_fst_pairing _ _

/-- **C6 (amended).** No two buckets of one histogram share a bucket key;
every deduplicated record falls into the bucket whose key is
`width · ⌊event_time / width⌋` — fixed-width buckets anchored at the fixed
`time_bucket` origin, independent of the window start; each emitted bucket
counts exactly the records mapped to its key and empty buckets are omitted. -/
theorem histogram_buckets_disjoint_epoch_anchored (width : Int) (cte : List Event) :
    ((genPrHistogram width cte).map Prod.fst).Nodup ∧
    (∀ e ∈ selectRowNumOne cte,
      timeBucket width e.event_time ∈ (genPrHistogram width cte).map Prod.fst) ∧
    (∀ p ∈ genPrHistogram width cte,
      p.2 = ((selectRowNumOne cte).filter fun e =>
          decide (timeBucket width e.event_time = p.1)).length ∧ p.2 ≠ 0) := by
  refine ⟨?_, ?_, ?_⟩
  · rw [genPrHistogram_keys]
    exact List.nodup_dedup _
  · intro e he
    rw [genPrHistogram_keys]
    exact List.mem_dedup.mpr (List.mem_map_of_mem _ he)
  · intro p hp
    unfold genPrHistogram histogramBuckets at hp
    obtain ⟨b, hb, rfl⟩ := List.mem_map.mp hp
    refine ⟨rfl, ?_⟩
    obtain ⟨e, he, hbe⟩ := List.mem_map.mp (List.mem_dedup.mp hb)
    have hmem : e ∈ (selectRowNumOne cte).filter
        fun e => decide (timeBucket width e.event_time = b) :=
      List.mem_filter.mpr ⟨he, decide_eq_true hbe⟩
    have hpos := List.length_pos.mpr (List.ne_nil_of_mem hmem)
    omega

def c6Ev : Event :=
  { baseEvent with
    event_id := 1
    pr_number := 1
    repo_name := "a/b"
    event_time := 30 }

/-- Counterexample to C6 as stated: with a 1-day bucket (width 24 hours) and a
window starting mid-day at instant 12, the event at instant 30 is bucketed by
`time_bucket` under key 24 (epoch-anchored), while the window-start-anchored
key of the claim is 12. -/
theorem histogram_window_anchor_counterexample :
    (genPrHistogram 24 [c6Ev]).map Prod.fst = [24] ∧
    specWindowAnchoredKey 12 24 c6Ev.event_time = 12 ∧
    ¬ (24 : Int) = specWindowAnchoredKey 12 24 c6Ev.event_time := by decide

/-- Witness for the amended C6 at a concrete record. -/
theorem histogram_buckets_disjoint_epoch_anchored_witness :
    timeBucket 24 c6Ev.event_time ∈ (genPrHistogram 24 [c6Ev]).map Prod.fst :=
  (histogram_buckets_disjoint_epoch_anchored 24 [c6Ev]).2.1 c6Ev (by decide)

/-! ### C7: status filter -/

/-- The status criterion of `findAllWithFilters`:
`"pr_state" = LOWER(:status)` — the stored state is compared raw, only the
supplied status is lower-cased. -/
def statusFilterKeeps (status : String) (e : Event) : Bool :=
  e.pr_state == lowerStr status

def c7EvUpper : Event := { baseEvent with pr_state := "CLOSED" }

/-- Counterexample to C7 as stated: an event whose stored `pr_state` differs
from the supplied status only in letter case is dropped, because the stored
side of the comparison is not lower-cased. -/
theorem status_filter_counterexample :
    statusFilterKeeps "closed" c7EvUpper = false ∧
    lowerStr c7EvUpper.pr_state = lowerStr "closed" := by decide

/-- **C7 (amended).** The status filter keeps an event iff the stored
`pr_state` equals the lowercased supplied status; in particular, whenever the
stored `pr_state` is already lowercase the filter is exactly the
case-insensitive equality of the claim. -/
theorem status_filter_case_insensitive_when_stored_lowercase (status : String) (e : Event)
    (h : lowerStr e.pr_state = e.pr_state) :
    statusFilterKeeps status e = true ↔ lowerStr e.pr_state = lowerStr status := by
  simp [statusFilterKeeps, h]

def c7EvLower : Event := { baseEvent with pr_state := "closed" }

/-- Witness for the amended C7: a lowercase stored state matches an uppercase
supplied status. -/
theorem status_filter_case_insensitive_witness :
    statusFilterKeeps "CLOSED" c7EvLower = true :=
  (status_filter_case_insensitive_when_stored_lowercase "CLOSED" c7EvLower
    (by decide)).mpr (by decide)

/-! ### C8: validation guards -/

/-- Whether an optional string criterion counts as absent — JavaScript
falsiness: `undefined` or the empty string. -/
def isBlank : Option String → Bool
  | none => true
  | some s => s.data.isEmpty

/-- Modelled from the spec: `PullRequestHistogramDto` is not under `src/`;
spec §3 lists the optional filter-criteria fields read by the guard. -/
structure PrHistogramCriteria where
  contributor : Option String
  repo : Option String
  topic : Option String
  filter : Option String
  repoIds : Option String
deriving DecidableEq, Repr

/-- Modelled from the spec: `ForksHistogramDto` is not under `src/`. -/
structure ForkHistogramCriteria where
  contributor : Option String
  repo : Option String
  topic : Option String
  filter : Option String
  repoIds : Option String
deriving DecidableEq, Repr

/-- Modelled from the spec: `PullRequestContributorOptionsDto` is not under
`src/`; spec §3 gives a contributor login as an optional criteria field of
every filter set, and `searchAuthors` never reads it. -/
structure AuthorSearchCriteria where
  contributor : Option String
  repos : Option String
  repoIds : Option String
  topic : Option String
  filter : Option String
deriving DecidableEq, Repr

/-- The validation guard opening `genPrHistogram`. -/
def genPrHistogramGuard (o : PrHistogramCriteria) : Except String Unit :=
  if isBlank o.contributor && isBlank o.repo && isBlank o.topic &&
      isBlank o.filter && isBlank o.repoIds then
    Except.error "must provide contributor, repo, topic, filter, or repoIds"
  else Except.ok ()

/-- The validation guard opening `genForkHistogram`. -/
def genForkHistogramGuard (o : ForkHistogramCriteria) : Except String Unit :=
  if isBlank o.contributor && isBlank o.repo && isBlank o.topic &&
      isBlank o.filter && isBlank o.repoIds then
    Except.error "must provide contributor, repo, topic, filter, or repoIds"
  else Except.ok ()

/-- The validation guard opening `searchAuthors` — it tests only
`repos`, `repoIds`, `topic` and `filter`. -/
def searchAuthorsGuard (o : AuthorSearchCriteria) : Except String Unit :=
  if isBlank o.repos && isBlank o.repoIds && isBlank o.topic && isBlank o.filter then
    Except.error "must provide repo, repoIds, topic, filter"
  else Except.ok ()

def c8ContributorOnly : AuthorSearchCriteria :=
  { contributor := some "x"
    repos := none
    repoIds := none
    topic := none
    filter := none }

/-- Counterexample to C8 as stated: supplying only a contributor satisfies the
claim's "at least one of {contributor, repo, repoIds, topic, filter}", yet the
author search still raises its validation error, while the PR histogram with
the same criteria does not. -/
theorem search_authors_contributor_only_counterexample :
    searchAuthorsGuard c8ContributorOnly
      = Except.error "must provide repo, repoIds, topic, filter" ∧
    genPrHistogramGuard ⟨some "x", none, none, none, none⟩ = Except.ok () :=
  ⟨rfl, rfl⟩

/-- **C8 (amended).** `genPrHistogram` and `genForkHistogram` raise their
validation error exactly when none of {contributor, repo, topic, filter,
repoIds} is supplied; `searchAuthors` raises its validation error exactly when
none of {repos, repoIds, topic, filter} is supplied — a supplied contributor
alone does not avert it.  When the respective guard passes, no
missing-criteria validation error is raised. -/
theorem validation_guards (oP : PrHistogramCriteria) (oF : ForkHistogramCriteria)
    (oA : AuthorSearchCriteria) :
    (genPrHistogramGuard oP = Except.ok () ↔
      (isBlank oP.contributor && isBlank oP.repo && isBlank oP.topic &&
        isBlank oP.filter && isBlank oP.repoIds) = false) ∧
    (genForkHistogramGuard oF = Except.ok () ↔
      (isBlank oF.contributor && isBlank oF.repo && isBlank oF.topic &&
        isBlank oF.filter && isBlank oF.repoIds) = false) ∧
    (searchAuthorsGuard oA = Except.ok () ↔
      (isBlank oA.repos && isBlank oA.repoIds && isBlank oA.topic &&
        isBlank oA.filter) = false) ∧
    (isBlank oA.repos = true → isBlank oA.repoIds = true → isBlank oA.topic = true →
      isBlank oA.filter = true →
      searchAuthorsGuard oA = Except.error "must provide repo, repoIds, topic, filter") := by
  refine ⟨?_, ?_, ?_, ?_⟩
  · unfold genPrHistogramGuard
    cases h : (isBlank oP.contributor && isBlank oP.repo && isBlank oP.topic &&
        isBlank oP.filter && isBlank oP.repoIds) <;> simp [h]
  · unfold genForkHistogramGuard
    cases h : (isBlank oF.contributor && isBlank oF.repo && isBlank oF.topic &&
        isBlank oF.filter && isBlank oF.repoIds) <;> simp [h]
  · unfold searchAuthorsGuard
    cases h : (isBlank oA.repos && isBlank oA.repoIds && isBlank oA.topic &&
        isBlank oA.filter) <;> simp [h]
  · intro h1 h2 h3 h4
    unfold searchAuthorsGuard
    simp [h1, h2, h3, h4]

/-- Witness for the amended C8: a criteria set with only the contributor
populated still hits the author-search validation error. -/
theorem validation_guards_witness :
    searchAuthorsGuard ⟨some "y", none, none, none, none⟩
      = Except.error "must provide repo, repoIds, topic, filter" :=
  (validation_guards ⟨none, none, none, none, none⟩ ⟨none, none, none, none, none⟩
    _).2.2.2 rfl rfl rfl rfl

/-! ### C3, C4: contributor cohorts -/

/-- `repos.toLowerCase().split(",")` — the repo-name list used both by the
membership subqueries and by the outer repo filter of
`findAuthorsWithFilters`. -/
def repoListOf (repos : String) : List String := splitComma (lowerStr repos)

/-- `BETWEEN lo AND hi` (inclusive on both ends, as in the SQL). -/
def inWindowB (lo hi t : Int) : Bool := decide (lo ≤ t) && decide (t ≤ hi)

/-- The `current_month_prs` / `previous_month_prs` subqueries:
`SELECT DISTINCT LOWER(pr_author_login) FROM pull_request_github_events WHERE
LOWER(repo_name) IN (repos) AND event_time BETWEEN lo AND hi`. -/
def windowAuthorSet (events : List Event) (repos : String) (lo hi : Int) : List String :=
  ((events.filter fun e =>
      decide (lowerStr e.repo_name ∈ repoListOf repos) && inWindowB lo hi e.event_time).map
    fun e => lowerStr e.pr_author_login).dedup

/-- Distinct lowered author logins with an event in the current window
`[startDate - range, startDate]`, scoped to `repos`. -/
def currentAuthorSet (events : List Event) (repos : String) (startDate : Int)
    (range : Nat) : List String :=
  windowAuthorSet events repos (startDate - range) startDate

/-- Distinct lowered author logins with an event in the previous window
`[startDate - (range + range), startDate - range]`, scoped to `repos`. -/
def previousAuthorSet (events : List Event) (repos : String) (startDate : Int)
    (range : Nat) : List String :=
  windowAuthorSet events repos (startDate - (range + range)) (startDate - range)

/-- The outer CTE rows of `findAuthorsWithFilters`: events in the requested
window whose lowered repo name is in the repo filter list. -/
def cohortWindowRows (events : List Event) (repos : String) (lo hi : Int) : List Event :=
  events.filter fun e =>
    inWindowB lo hi e.event_time && decide (lowerStr e.repo_name ∈ repoListOf repos)

/-- `applyActiveContributorsFilter` over the current-window CTE rows.  The
`previous_month_prs` left join's ON condition references
`current_month_prs.pr_author_login` (not the joined table), so under SQL left
join semantics a row's joined previous-window author is non-NULL exactly when
the row's raw author login matched the lowered current-window set and the
previous-window set is non-empty; the final `IS NOT NULL` filters therefore
keep a row iff the author matches the current set and the previous set has any
member at all. -/
def activeContributorLogins (events : List Event) (repos : String) (startDate : Int)
    (range : Nat) : List String :=
  (((cohortWindowRows events repos (startDate - range) startDate).filter fun e =>
      decide (e.pr_author_login ∈ currentAuthorSet events repos startDate range) &&
        !(previousAuthorSet events repos startDate range).isEmpty).map
    fun e => e.pr_author_login).dedup

/-- `applyNewContributorsFilter` over the current-window CTE rows: previous
join NULL (author not in the previous set) and current join non-NULL. -/
def newContributorLogins (events : List Event) (repos : String) (startDate : Int)
    (range : Nat) : List String :=
  (((cohortWindowRows events repos (startDate - range) startDate).filter fun e =>
      !(decide (e.pr_author_login ∈ previousAuthorSet events repos startDate range)) &&
        decide (e.pr_author_login ∈ currentAuthorSet events repos startDate range)).map
    fun e => e.pr_author_login).dedup

/-- `applyAlumniContributorsFilter` over the extended-window CTE rows:
previous join non-NULL and current join NULL. -/
def alumniContributorLogins (events : List Event) (repos : String) (startDate : Int)
    (range : Nat) : List String :=
  (((cohortWindowRows events repos (startDate - (range + range)) startDate).filter fun e =>
      decide (e.pr_author_login ∈ previousAuthorSet events repos startDate range) &&
        !(decide (e.pr_author_login ∈ currentAuthorSet events repos startDate range))).map
    fun e => e.pr_author_login).dedup

/-- The spec-side presence predicate: the author login has at least one
matching event in the window, under the same repo scope. -/
def hasMatchingEventInWindow (events : List Event) (repos : String) (lo hi : Int)
    (login : String) : Bool :=
  (cohortWindowRows events repos lo hi).any fun e =>
    lowerStr e.pr_author_login == lowerStr login

def cohortEvAlice : Event :=
  { baseEvent with
    event_id := 1
    pr_number := 1
    repo_name := "a/b"
    pr_author_login := "alice"
    event_time := 80 }

def cohortEvBob : Event :=
  { baseEvent with
    event_id := 2
    pr_number := 2
    repo_name := "a/b"
    pr_author_login := "bob"
    event_time := 20 }

def cohortEvents : List Event := [cohortEvAlice, cohortEvBob]

/-- **C3 (code bug).** With `startDate = 100`, `range = 50` (current window
`[50, 100]`, previous window `[0, 50]`) and repo filter `"a/b"`: "alice" has a
matching event only in the current window, yet the active-cohort filter
includes her, because the previous-window join condition of
`applyActiveContributorsFilter` references `current_month_prs` and therefore
only checks that the previous-window author set (here populated by "bob") is
non-empty. -/
theorem active_cohort_requires_presence_in_both_windows_bug :
    "alice" ∈ activeContributorLogins cohortEvents "a/b" 100 50 ∧
    hasMatchingEventInWindow cohortEvents "a/b" 50 100 "alice" = true ∧
    hasMatchingEventInWindow cohortEvents "a/b" 0 50 "alice" = false := by decide

/-- **C4 (code bug).** On the same input, "alice" is present in the current
window and lands in both the active and the new cohort, so the cohorts do not
partition the current-window logins. -/
theorem cohort_partition_completeness_bug :
    hasMatchingEventInWindow cohortEvents "a/b" 50 100 "alice" = true ∧
    "alice" ∈ activeContributorLogins cohortEvents "a/b" 100 50 ∧
    "alice" ∈ newContributorLogins cohortEvents "a/b" 100 50 := by decide

/-! ### C9: findCountByPrAuthor -/

/-- The rows `counterBaseQueryBuilder` + author filter select: events of the
author (case-insensitive) inside the window, across all repos, with no
deduplication. -/
def authorWindowEvents (events : List Event) (author : String) (range : Nat)
    (startDate : Int) : List Event :=
  events.filter fun e =>
    decide (lowerStr e.pr_author_login = lowerStr author) &&
      inWindowB (startDate - range) startDate e.event_time

/-- `findCountByPrAuthor`: `COUNT(DISTINCT pr_number)` over the author's
windowed events — no repo partitioning and no latest-state dedup. -/
def findCountByPrAuthor (events : List Event) (author : String) (range : Nat)
    (startDate : Int) : Nat :=
  (((authorWindowEvents events author range startDate).map fun e => e.pr_number).dedup).length

def c9EvA : Event :=
  { baseEvent with
    event_id := 1
    pr_number := 7
    repo_name := "a/b"
    pr_author_login := "x"
    event_time := 80 }

def c9EvB : Event :=
  { baseEvent with
    event_id := 2
    pr_number := 7
    repo_name := "c/d"
    pr_author_login := "x"
    event_time := 60 }

/-- **C9.** `findCountByPrAuthor` returns the number of distinct `pr_number`
values among the author's windowed events; in particular two pull requests in
different repos that share a `pr_number` are counted as one. -/
theorem find_count_by_pr_author_distinct_pr_numbers (events : List Event)
    (author : String) (range : Nat) (startDate : Int) :
    findCountByPrAuthor events author range startDate =
      (((authorWindowEvents events author range startDate).map
        fun e => e.pr_number).toFinset).card ∧
    findCountByPrAuthor [c9EvA, c9EvB] "x" 50 100 = 1 ∧
    c9EvA.repo_name ≠ c9EvB.repo_name ∧
    c9EvA.pr_number = c9EvB.pr_number ∧
    c9EvA ∈ authorWindowEvents [c9EvA, c9EvB] "x" 50 100 ∧
    c9EvB ∈ authorWindowEvents [c9EvA, c9EvB] "x" 50 100 := by
  refine ⟨(List.card_toFinset _).symm, ?_, ?_, ?_, ?_, ?_⟩ <;> decide

/-! ### C10: findAllRecentContributors -/

/-- A row of the `pull_requests` table, with the columns
`getContributorRangeQueryBuilder` reads. -/
structure PullRequest where
  author_login : String
  repo_id : Nat
  updated_at : Int
deriving DecidableEq, Repr

/-- The distinct author logins selected by `getContributorRangeQueryBuilder`:
non-empty login, repo joined against the `repos` table and restricted to
`repoIds`, `updated_at` in `[startDate - endRange, startDate - startRange)`. -/
def contributorRangeLogins (prs : List PullRequest) (reposTable : List Nat)
    (startDate : Int) (startRange endRange : Nat) (repoIds : List Nat) : List String :=
  ((prs.filter fun p =>
      decide (startDate - endRange ≤ p.updated_at) &&
        decide (p.updated_at < startDate - startRange) &&
        !(p.author_login == "") &&
        decide (p.repo_id ∈ reposTable) &&
        decide (p.repo_id ∈ repoIds)).map fun p => p.author_login).dedup

/-- `getContributorRangeQueryBuilder`, including its empty-repo-ids guard. -/
def getContributorRangeQuery (prs : List PullRequest) (reposTable : List Nat)
    (startDate : Int) (startRange endRange : Nat) (repoIds : List Nat) :
    Except String (List String) :=
  if repoIds.isEmpty then Except.error "Repo Ids cannot be empty"
  else Except.ok (contributorRangeLogins prs reposTable startDate startRange endRange repoIds)

/-- `findAllRecentContributors`: runs the range query for `[startDate - range,
startDate)` with no offset or limit, and builds the page metadata after
replacing `limit` with the item count and `skip` with 0.  The caller-supplied
`skip` and `limit` are accepted but never read. -/
def findAllRecentContributors (prs : List PullRequest) (reposTable : List Nat)
    (startDate : Int) (range : Nat) (repoIds : List Nat) (skip limit : Nat) :
    Except String (Page String) :=
  match getContributorRangeQuery prs reposTable startDate 0 range repoIds with
  | Except.error e => Except.error e
  | Except.ok logins =>
      Except.ok { items := logins, meta := mkPageMeta logins.length logins.length 0 }

lemma mkPageMeta_full (n : Nat) :
    (mkPageMeta n n 0).page = 1 ∧ (mkPageMeta n n 0).pageCount ≤ 1 ∧
    (mkPageMeta n n 0).hasPreviousPage = false ∧ (mkPageMeta n n 0).hasNextPage = false := by
  have hpc : (n + n - 1) / n ≤ 1 := by
    rcases n with _ | m
    · simp
    · have h1 : (m + 1 + (m + 1) - 1) / (m + 1) = 1 := by
        apply Nat.div_eq_of_lt_le <;> omega
      omega
  refine ⟨by simp [mkPageMeta], by simpa [mkPageMeta] using hpc, by simp [mkPageMeta], ?_⟩
  show decide (0 / n + 1 < (n + n - 1) / n) = false
  simp only [Nat.zero_div, decide_eq_false_iff_not]
  exact Nat.not_lt.mpr (by simpa using hpc)

/-- **C10.** `findAllRecentContributors` ignores the caller-supplied `skip`
and `limit` entirely: it returns every distinct matching author login of the
current window as items, and its page metadata is computed with `limit`
replaced by the full item count and `skip` replaced by 0, so the result is a
single page (page 1, page count at most 1, no further pages) containing the
whole set. -/
theorem find_all_recent_contributors_ignores_pagination (prs : List PullRequest)
    (reposTable : List Nat) (startDate : Int) (range : Nat) (repoIds : List Nat)
    (skip limit : Nat) (h : repoIds ≠ []) :
    (∀ skip2 limit2,
      findAllRecentContributors prs reposTable startDate range repoIds skip limit =
        findAllRecentContributors prs reposTable startDate range repoIds skip2 limit2) ∧
    ∃ pg, findAllRecentContributors prs reposTable startDate range repoIds skip limit
        = Except.ok pg ∧
      pg.items = contributorRangeLogins prs reposTable startDate 0 range repoIds ∧
      pg.meta.itemCount = pg.items.length ∧
      pg.meta.limit = pg.meta.itemCount ∧
      pg.meta.page = 1 ∧
      pg.meta.pageCount ≤ 1 ∧
      pg.meta.hasPreviousPage = false ∧
      pg.meta.hasNextPage = false := by
  have hne : repoIds.isEmpty = false := by
    rcases repoIds with _ | ⟨a, t⟩
    · exact absurd rfl h
    · rfl
  have h1 : findAllRecentContributors prs reposTable startDate range repoIds skip limit
      = Except.ok (Page.mk (contributorRangeLogins prs reposTable startDate 0 range repoIds)
          (mkPageMeta (contributorRangeLogins prs reposTable startDate 0 range repoIds).length
            (contributorRangeLogins prs reposTable startDate 0 range repoIds).length 0)) := by
    unfold findAllRecentContributors getContributorRangeQuery
    rw [hne]
    rfl
  exact ⟨fun skip2 limit2 => rfl,
    ⟨_, h1, rfl, rfl, rfl, (mkPageMeta_full _).1, (mkPageMeta_full _).2.1,
      (mkPageMeta_full _).2.2.1, (mkPageMeta_full _).2.2.2⟩⟩

def c10Pr : PullRequest := { author_login := "x", repo_id := 1, updated_at := 80 }

/-- Witness for C10: two different skip/limit pairs give identical results. -/
theorem find_all_recent_contributors_witness :
    findAllRecentContributors [c10Pr] [1] 100 50 [1] 5 7
      = findAllRecentContributors [c10Pr] [1] 100 50 [1] 0 2 :=
  (find_all_recent_contributors_ignores_pagination [c10Pr] [1] 100 50 [1] 5 7
    (by decide)).1 0 2

end OpenSaucedApi
